import Mathlib

/-!
Verification development for the CardioGuard ESP32 Holter ECG simulator
(`src/esp32-holter-sim/src/main.cpp`).

The firmware's globals become a `DeviceState` record, its functions become
pure state-transformers, C floating point is modelled by `ℚ`, machine
integers by `ℕ`/`ℤ` with explicit `% 2^w` where overflow matters, and the
hardware inputs (millis clock, ADC reads, random draws, serial bytes, BLE
connection flag) become explicit parameters.
-/

/-! ### Byte-level helpers (two's-complement int16 little-endian) -/

/-- `adcValue & 0xFF` on a two's-complement value: the low byte. -/
def byteLo (z : ℤ) : ℕ := (z % 256).toNat

/-- `(adcValue >> 8) & 0xFF` on a two's-complement int16: arithmetic right
shift is floor division by 256, then the low byte of the result. -/
def byteHi (z : ℤ) : ℕ := ((Int.fdiv z 256) % 256).toNat

/-- Interpret a 16-bit unsigned value as a two's-complement int16
(the external parser's inverse reading). -/
def toInt16 (w : ℕ) : ℤ := if w < 32768 then (w : ℤ) else (w : ℤ) - 65536

/-- Reduce an integer into the int16 range by two's-complement wraparound. -/
def wrapInt16 (z : ℤ) : ℤ := (z + 32768) % 65536 - 32768

/-! ### Voltage-to-integer conversion (`mvToADC`)

Source:
```
#define ADC_TO_MV 0.00286
int16_t mvToADC(float mv) { return (int16_t)(mv / ADC_TO_MV); }
```
The C cast from floating point to a signed integer truncates toward zero;
the resulting value is then narrowed into int16 by two's-complement
wraparound. -/

/-- Calibration factor `ADC_TO_MV = 0.00286`. -/
def ADC_TO_MV : ℚ := 286 / 100000

/-- C-style float→int conversion: truncation toward zero. -/
def truncToInt (q : ℚ) : ℤ := if q < 0 then ⌈q⌉ else ⌊q⌋

/-- `mvToADC` from the source: divide by the calibration factor, truncate
toward zero, narrow to int16 by wraparound. -/
def mvToADC (mv : ℚ) : ℤ := wrapInt16 (truncToInt (mv / ADC_TO_MV))

/-- Written from the spec's words, for comparison with `mvToADC`:
`raw = round(millivolts / calibrationFactor)`, wrapped into int16. -/
def mvToADCRounded (mv : ℚ) : ℤ := wrapInt16 (round (mv / ADC_TO_MV))

/-! ### Packet encoder (`sendECGPacket` byte layout)

Source:
```
packet[0] = sequenceNumber & 0xFF;
packet[1] = (sequenceNumber >> 8) & 0xFF;
packet[2] = SAMPLES_PER_PACKET & 0xFF;
packet[3] = (SAMPLES_PER_PACKET >> 8) & 0xFF;
... packet[offset] = adcValue & 0xFF; packet[offset+1] = (adcValue >> 8) & 0xFF;
```
`encodePacket` is the same layout for a general sample list; the firmware
always calls it with a list of length `SAMPLES_PER_PACKET = 8`. -/

/-- Serialize each int16 sample as two little-endian bytes, in order. -/
def encodeSamples : List ℤ → List ℕ
  | [] => []
  | a :: rest => byteLo a :: byteHi a :: encodeSamples rest

/-- The wire packet: 2-byte LE sequence number, 2-byte LE sample count,
then the samples. -/
def encodePacket (seq : ℕ) (samples : List ℤ) : List ℕ :=
  (seq % 256) :: (seq / 256 % 256) ::
  (samples.length % 256) :: (samples.length / 256 % 256) ::
  encodeSamples samples

/-- The external parser's inverse: read consecutive 2-byte LE int16s. -/
def decodeInt16s : List ℕ → List ℤ
  | lo :: hi :: rest => toInt16 (lo + 256 * hi) :: decodeInt16s rest
  | _ => []

/-! ### Byte-helper lemmas -/

theorem byteHi_eq (z : ℤ) : byteHi z = ((z / 256) % 256).toNat := by
  unfold byteHi
  rw [Int.fdiv_eq_ediv _ (by norm_num)]

theorem byteLo_lt (z : ℤ) : byteLo z < 256 := by
  unfold byteLo
  have h1 : (0:ℤ) ≤ z % 256 := Int.emod_nonneg z (by norm_num)
  have h2 : z % 256 < 256 := Int.emod_lt_of_pos z (by norm_num)
  omega

theorem byteHi_lt (z : ℤ) : byteHi z < 256 := by
  rw [byteHi_eq]
  have h1 : (0:ℤ) ≤ z / 256 % 256 := Int.emod_nonneg _ (by norm_num)
  have h2 : z / 256 % 256 < 256 := Int.emod_lt_of_pos _ (by norm_num)
  omega

/-- Round trip for one sample: the parser's 2-byte LE int16 read undoes the
encoder's byte split, for any value in the int16 range. -/
theorem toInt16_bytes (a : ℤ) (hlo : -32768 ≤ a) (hhi : a ≤ 32767) :
    toInt16 (byteLo a + 256 * byteHi a) = a := by
  rw [byteHi_eq]
  unfold byteLo toInt16
  have h1 : (0:ℤ) ≤ a % 256 := Int.emod_nonneg a (by norm_num)
  have h2 : a % 256 < 256 := Int.emod_lt_of_pos a (by norm_num)
  have h3 : (0:ℤ) ≤ a / 256 % 256 := Int.emod_nonneg _ (by norm_num)
  have h4 : a / 256 % 256 < 256 := Int.emod_lt_of_pos _ (by norm_num)
  have h5 : 256 * (a / 256) + a % 256 = a := Int.ediv_add_emod a 256
  have h6 : a / 256 = 256 * (a / 256 / 256) + a / 256 % 256 :=
    (Int.ediv_add_emod (a / 256) 256).symm
  split
  · -- decoded value below 32768: a must be nonnegative
    omega
  · omega

/-! ### Device state (the firmware's globals) and environment inputs -/

/-- The firmware's mutable globals.  C floats become `ℚ`; `sequenceNumber`
is a uint16 (`< 65536`), `sampleIndex` a uint32, `batteryLevel` a uint8,
timestamps are the monotonic `millis()` values in `ℕ`. -/
structure DeviceState where
  deviceConnected : Bool
  oldDeviceConnected : Bool
  sequenceNumber : ℕ
  batteryLevel : ℕ
  sampleIndex : ℕ
  heartRateBPM : ℚ
  rrIntervalSamples : ℚ
  nextRPeakAt : ℚ
  lastPacketTime : ℕ
  lastBatteryTime : ℕ
  lastLEDTime : ℕ
  ledState : Bool
  arrhythmiaMode : Bool
  arrhythmiaStart : ℕ
  lastPotValue : ℤ
  lastPotRead : ℕ
  deriving DecidableEq

/-- Inputs one `loop()` iteration reads from hardware: the `millis()` clock,
the per-sample-index millivolt waveform values (absorbing `generateECGSample`
and its noise), the two `random(...)` draw streams of the beat-variability
step indexed by loop iteration, the `analogRead` value, the button level and
the pending serial byte. -/
structure Env where
  now : ℕ
  mvs : ℕ → ℚ
  r1 : ℕ → ℤ
  r2 : ℕ → ℤ
  potValue : ℤ
  buttonPressed : Bool
  serialCmd : Option Char

/-- `setup()`: 72 BPM, `rrIntervalSamples = (60.0/72)*250`,
`nextRPeakAt = rrIntervalSamples`, everything else at its declared
starting value. -/
def initState : DeviceState :=
  { deviceConnected := false
    oldDeviceConnected := false
    sequenceNumber := 0
    batteryLevel := 95
    sampleIndex := 0
    heartRateBPM := 72
    rrIntervalSamples := 60 / 72 * 250
    nextRPeakAt := 60 / 72 * 250
    lastPacketTime := 0
    lastBatteryTime := 0
    lastLEDTime := 0
    ledState := false
    arrhythmiaMode := false
    arrhythmiaStart := 0
    lastPotValue := -1
    lastPotRead := 0 }

/-! ### Beat timing (`sendECGPacket` inner loop) -/

/-- The R-peak check after `sampleIndex++` in `sendECGPacket`:
```
if (sampleIndex >= (uint32_t)nextRPeakAt) {
  float variation = ((float)random(-50, 50) / 1000.0) * rrIntervalSamples;
  float newRR = rrIntervalSamples + variation;
  if (arrhythmiaMode) {
    float extraVariation = ((float)random(-200, 200) / 1000.0) * rrIntervalSamples;
    newRR += extraVariation;
  }
  nextRPeakAt = sampleIndex + newRR;
  digitalWrite(LED_PIN, HIGH); ledState = true; lastLEDTime = millis();
}
```
`d1`, `d2` are the values the two `random` calls return; the uint32 cast of
the float boundary truncates toward zero (boundary is nonnegative in use). -/
def beatCheck (d1 d2 : ℤ) (now : ℕ) (s : DeviceState) : DeviceState :=
  if s.sampleIndex ≥ (⌊s.nextRPeakAt⌋).toNat then
    let variation : ℚ := (d1 : ℚ) / 1000 * s.rrIntervalSamples
    let newRR : ℚ :=
      s.rrIntervalSamples + variation +
        (if s.arrhythmiaMode then (d2 : ℚ) / 1000 * s.rrIntervalSamples else 0)
    { s with nextRPeakAt := (s.sampleIndex : ℚ) + newRR
             ledState := true
             lastLEDTime := now }
  else s

/-- One iteration of the sample loop, after the sample's bytes are written:
`sampleIndex++` (uint32) then the R-peak check. -/
def sampleStep (d1 d2 : ℤ) (now : ℕ) (s : DeviceState) : DeviceState :=
  beatCheck d1 d2 now { s with sampleIndex := (s.sampleIndex + 1) % 4294967296 }

/-- The sample loop of `sendECGPacket`: at iteration `i` (starting at `i0`),
convert `mvs sampleIndex` through `mvToADC` into the sample list, then run
`sampleStep` with that iteration's random draws. -/
def emitSamples (mvs : ℕ → ℚ) (r1 r2 : ℕ → ℤ) (now : ℕ) :
    ℕ → ℕ → DeviceState → List ℤ × DeviceState
  | _, 0, s => ([], s)
  | i0, n + 1, s =>
    let a := mvToADC (mvs s.sampleIndex)
    let s1 := sampleStep (r1 i0) (r2 i0) now s
    let r := emitSamples mvs r1 r2 now (i0 + 1) n s1
    (a :: r.1, r.2)

/-- `sendECGPacket`: build the 8-sample batch, frame it behind the
little-endian header holding the pre-increment sequence number and the
sample count, then `sequenceNumber++` (uint16 wrap).  Returns the packet
handed to the notification sink together with the new state. -/
def sendECGPacket (mvs : ℕ → ℚ) (r1 r2 : ℕ → ℤ) (now : ℕ) (s : DeviceState) :
    List ℕ × DeviceState :=
  let r := emitSamples mvs r1 r2 now 0 8 s
  (encodePacket s.sequenceNumber r.1,
   { r.2 with sequenceNumber := (r.2.sequenceNumber + 1) % 65536 })

/-! ### Operator input polling (`updateHeartRateFromPot`) -/

/-- ```
void updateHeartRateFromPot() {
  int potValue = analogRead(POT_PIN);
  static int lastPotValue = -1;
  if (abs(potValue - lastPotValue) < 50 && lastPotValue != -1) {
    lastPotValue = potValue; return;
  }
  lastPotValue = potValue;
  float newBPM = 40.0 + (potValue / 4095.0) * 140.0;
  heartRateBPM = heartRateBPM * 0.9 + newBPM * 0.1;
  rrIntervalSamples = (60.0 / heartRateBPM) * SAMPLE_RATE;
}
``` -/
def updateHeartRateFromPot (potValue : ℤ) (s : DeviceState) : DeviceState :=
  if (potValue - s.lastPotValue).natAbs < 50 ∧ s.lastPotValue ≠ -1 then
    { s with lastPotValue := potValue }
  else
    let newBPM : ℚ := 40 + ((potValue : ℚ) / 4095) * 140
    let bpm := s.heartRateBPM * (9 / 10) + newBPM * (1 / 10)
    { s with lastPotValue := potValue
             heartRateBPM := bpm
             rrIntervalSamples := 60 / bpm * 250 }

/-! ### Serial command interpreter (the `switch` in `loop()`) -/

/-- The mutating serial commands; `b`/`B`/`h`/`H` and unknown bytes only
print and leave the state unchanged. -/
def applyCommand (c : Char) (now : ℕ) (s : DeviceState) : DeviceState :=
  if c = 'a' ∨ c = 'A' then
    { s with arrhythmiaMode := !s.arrhythmiaMode, arrhythmiaStart := now }
  else if c = 'r' ∨ c = 'R' then
    { s with batteryLevel := 95 }
  else if c = '+' then
    let bpm := min 180 (s.heartRateBPM + 10)
    { s with heartRateBPM := bpm, rrIntervalSamples := 60 / bpm * 250 }
  else if c = '-' then
    let bpm := max 40 (s.heartRateBPM - 10)
    { s with heartRateBPM := bpm, rrIntervalSamples := 60 / bpm * 250 }
  else s

/-! ### The superloop (`loop()`), block by block in source order -/

/-- Connection-state edge handling at the top of `loop()`: on a
disconnected→connected edge reset `sequenceNumber`, `sampleIndex`,
`nextRPeakAt` and latch `oldDeviceConnected`; on a connected→disconnected
edge clear the latch (and re-advertise — no state beyond the latch). -/
def connectionEdge (s : DeviceState) : DeviceState :=
  let s1 :=
    if s.deviceConnected ∧ ¬ s.oldDeviceConnected then
      { s with sequenceNumber := 0
               sampleIndex := 0
               nextRPeakAt := s.rrIntervalSamples
               oldDeviceConnected := true }
    else s
  if ¬ s1.deviceConnected ∧ s1.oldDeviceConnected then
    { s1 with oldDeviceConnected := false }
  else s1

/-- Emission task: while connected, every `PACKET_INTERVAL_MS = 32` ms,
stamp `lastPacketTime` and send a packet. -/
def emissionStep (env : Env) (s : DeviceState) :
    DeviceState × Option (List ℕ) :=
  if s.deviceConnected ∧ env.now - s.lastPacketTime ≥ 32 then
    let r := sendECGPacket env.mvs env.r1 env.r2 env.now
      { s with lastPacketTime := env.now }
    (r.2, some r.1)
  else (s, none)

/-- Battery task: every `BATTERY_DRAIN_INTERVAL_MS = 120000` ms,
`if (batteryLevel > 5) batteryLevel--`. -/
def batteryStep (now : ℕ) (s : DeviceState) : DeviceState :=
  if now - s.lastBatteryTime ≥ 120000 then
    { s with lastBatteryTime := now
             batteryLevel :=
               if s.batteryLevel > 5 then s.batteryLevel - 1
               else s.batteryLevel }
  else s

/-- Indicator task: clear the LED 50 ms after it was lit. -/
def ledStep (now : ℕ) (s : DeviceState) : DeviceState :=
  if s.ledState ∧ now - s.lastLEDTime > 50 then
    { s with ledState := false }
  else s

/-- Potentiometer task: every 500 ms, poll the operator input. -/
def potStep (now : ℕ) (potValue : ℤ) (s : DeviceState) : DeviceState :=
  if now - s.lastPotRead ≥ 500 then
    updateHeartRateFromPot potValue { s with lastPotRead := now }
  else s

/-- BOOT-button task: a pressed button activates fault mode (records the
start time) only when it is not already active. -/
def buttonStep (now : ℕ) (pressed : Bool) (s : DeviceState) : DeviceState :=
  if pressed ∧ ¬ s.arrhythmiaMode then
    { s with arrhythmiaMode := true, arrhythmiaStart := now }
  else s

/-- Fault-window task: `ARRHYTHMIA_DURATION_MS = 10000` ms after the window
start, deactivate fault mode. -/
def faultTimeoutStep (now : ℕ) (s : DeviceState) : DeviceState :=
  if s.arrhythmiaMode ∧ now - s.arrhythmiaStart ≥ 10000 then
    { s with arrhythmiaMode := false }
  else s

/-- Serial task: consume the pending byte, if any. -/
def serialStep (now : ℕ) (cmd : Option Char) (s : DeviceState) : DeviceState :=
  match cmd with
  | some c => applyCommand c now s
  | none => s

/-- One `loop()` iteration, blocks in source order; returns the new state
and the ECG packet published this tick, if any. -/
def loopStep (env : Env) (s : DeviceState) :
    DeviceState × Option (List ℕ) :=
  let r := emissionStep env (connectionEdge s)
  (serialStep env.now env.serialCmd
    (faultTimeoutStep env.now
      (buttonStep env.now env.buttonPressed
        (potStep env.now env.potValue
          (ledStep env.now
            (batteryStep env.now r.1))))), r.2)

/-- A run of consecutive `loop()` iterations; collects the emitted packets. -/
def loopTrace : List Env → DeviceState → DeviceState × List (Option (List ℕ))
  | [], s => (s, [])
  | env :: rest, s =>
    let r := loopStep env s
    let t := loopTrace rest r.1
    (t.1, r.2 :: t.2)

/-! ### Encoder lemmas -/

theorem encodeSamples_length (l : List ℤ) :
    (encodeSamples l).length = 2 * l.length := by
  induction l with
  | nil => rfl
  | cons a rest ih =>
    simp only [encodeSamples, List.length_cons, ih]
    ring

theorem decode_encodeSamples (l : List ℤ)
    (h : ∀ a ∈ l, -32768 ≤ a ∧ a ≤ 32767) :
    decodeInt16s (encodeSamples l) = l := by
  induction l with
  | nil => rfl
  | cons a rest ih =>
    have ha := h a (List.mem_cons_self a rest)
    simp only [encodeSamples, decodeInt16s]
    rw [toInt16_bytes a ha.1 ha.2,
      ih (fun b hb => h b (List.mem_cons_of_mem a hb))]

theorem encodeSamples_bytes_lt (l : List ℤ) :
    ∀ b ∈ encodeSamples l, b < 256 := by
  induction l with
  | nil => intro b hb; cases hb
  | cons a rest ih =>
    intro b hb
    simp only [encodeSamples, List.mem_cons] at hb
    rcases hb with h | h | h
    · subst h; exact byteLo_lt a
    · subst h; exact byteHi_lt a
    · exact ih b h

/-- C1: the encoded packet is exactly `4 + 2n` bytes; bytes 0-1 are the
sequence number little-endian, bytes 2-3 the sample count little-endian,
and from byte 4 on each sample appears in order as a 2-byte little-endian
int16 (so the parser's inverse LE reading recovers the sample list); every
byte is an 8-bit value. -/
theorem encodePacket_layout (seq : ℕ) (samples : List ℤ)
    (hseq : seq < 65536) (hn : samples.length < 65536)
    (hs : ∀ a ∈ samples, -32768 ≤ a ∧ a ≤ 32767) :
    (encodePacket seq samples).length = 4 + 2 * samples.length ∧
    (encodePacket seq samples).getD 0 0 +
      256 * (encodePacket seq samples).getD 1 0 = seq ∧
    (encodePacket seq samples).getD 2 0 +
      256 * (encodePacket seq samples).getD 3 0 = samples.length ∧
    decodeInt16s ((encodePacket seq samples).drop 4) = samples ∧
    (∀ b ∈ encodePacket seq samples, b < 256) := by
  refine ⟨?_, ?_, ?_, ?_, ?_⟩
  · simp [encodePacket, encodeSamples_length]
    omega
  · simp [encodePacket]
    omega
  · simp [encodePacket]
    omega
  · simp only [encodePacket, List.drop_succ_cons, List.drop_zero]
    exact decode_encodeSamples samples hs
  · intro b hb
    simp only [encodePacket, List.mem_cons] at hb
    rcases hb with h | h | h | h | h
    · omega
    · omega
    · omega
    · omega
    · exact encodeSamples_bytes_lt samples b h

/-- Witness for C1 at the spec's own round-trip test vector. -/
theorem encodePacket_layout_witness :
    (encodePacket 5 [100, -200, 32767, -32768]).length =
      4 + 2 * ([100, -200, 32767, -32768] : List ℤ).length ∧
    (encodePacket 5 [100, -200, 32767, -32768]).getD 0 0 +
      256 * (encodePacket 5 [100, -200, 32767, -32768]).getD 1 0 = 5 ∧
    (encodePacket 5 [100, -200, 32767, -32768]).getD 2 0 +
      256 * (encodePacket 5 [100, -200, 32767, -32768]).getD 3 0 =
      ([100, -200, 32767, -32768] : List ℤ).length ∧
    decodeInt16s ((encodePacket 5 [100, -200, 32767, -32768]).drop 4) =
      [100, -200, 32767, -32768] ∧
    (∀ b ∈ encodePacket 5 [100, -200, 32767, -32768], b < 256) :=
  encodePacket_layout 5 [100, -200, 32767, -32768]
    (by decide) (by decide) (by decide)

/-! ### C2: the voltage-to-integer conversion truncates, it does not round -/

theorem wrapInt16_spec (z : ℤ) :
    -32768 ≤ wrapInt16 z ∧ wrapInt16 z ≤ 32767 ∧
    (65536 : ℤ) ∣ (z - wrapInt16 z) ∧
    (-32768 ≤ z → z ≤ 32767 → wrapInt16 z = z) := by
  unfold wrapInt16
  omega

/-- C2 counterexample: at `mv = 0.005` the quotient `mv / 0.00286 =
250/143 ≈ 1.748`; the code truncates to `1` while the claimed rounding
gives `2`. -/
theorem mvToADC_not_rounded :
    mvToADC (1 / 200) = 1 ∧ mvToADCRounded (1 / 200) = 2 ∧
    mvToADC (1 / 200) ≠ mvToADCRounded (1 / 200) := by
  have hq : ((1 : ℚ) / 200) / ADC_TO_MV = 250 / 143 := by
    norm_num [ADC_TO_MV]
  have h1 : truncToInt ((1 : ℚ) / 200 / ADC_TO_MV) = 1 := by
    unfold truncToInt
    rw [hq, if_neg (by norm_num)]
    norm_num
  have h2 : round ((1 : ℚ) / 200 / ADC_TO_MV) = 2 := by
    rw [hq]
    norm_num [round_eq]
  have g1 : mvToADC (1 / 200) = 1 := by
    unfold mvToADC
    rw [h1]
    norm_num [wrapInt16]
  have g2 : mvToADCRounded (1 / 200) = 2 := by
    unfold mvToADCRounded
    rw [h2]
    norm_num [wrapInt16]
  exact ⟨g1, g2, by rw [g1, g2]; norm_num⟩

/-- C2 amended: `raw` is the quotient `mv / 0.00286` truncated toward zero
(C float→int cast), then narrowed into the int16 range by two's-complement
wraparound modulo 2^16; no error is signalled and in-range quotients are
kept exactly. -/
theorem mvToADC_trunc_wrap (mv : ℚ) :
    -32768 ≤ mvToADC mv ∧ mvToADC mv ≤ 32767 ∧
    (65536 : ℤ) ∣ (truncToInt (mv / ADC_TO_MV) - mvToADC mv) ∧
    (-32768 ≤ truncToInt (mv / ADC_TO_MV) →
      truncToInt (mv / ADC_TO_MV) ≤ 32767 →
      mvToADC mv = truncToInt (mv / ADC_TO_MV)) :=
  wrapInt16_spec (truncToInt (mv / ADC_TO_MV))

/-- Witness for C2's amended statement at `mv = 0.005`. -/
theorem mvToADC_trunc_wrap_witness :
    -32768 ≤ mvToADC (1 / 200) ∧
    mvToADC (1 / 200) = truncToInt ((1 / 200) / ADC_TO_MV) := by
  have hq : ((1 : ℚ) / 200) / ADC_TO_MV = 250 / 143 := by
    norm_num [ADC_TO_MV]
  have h1 : truncToInt ((1 : ℚ) / 200 / ADC_TO_MV) = 1 := by
    unfold truncToInt
    rw [hq, if_neg (by norm_num)]
    norm_num
  have h := mvToADC_trunc_wrap (1 / 200)
  exact ⟨h.1, h.2.2.2 (by rw [h1]; norm_num) (by rw [h1]; norm_num)⟩

/-! ### Field-preservation lemmas for the sample loop -/

theorem sampleStep_fields (d1 d2 : ℤ) (now : ℕ) (s : DeviceState) :
    (sampleStep d1 d2 now s).deviceConnected = s.deviceConnected ∧
    (sampleStep d1 d2 now s).oldDeviceConnected = s.oldDeviceConnected ∧
    (sampleStep d1 d2 now s).sequenceNumber = s.sequenceNumber ∧
    (sampleStep d1 d2 now s).batteryLevel = s.batteryLevel ∧
    (sampleStep d1 d2 now s).heartRateBPM = s.heartRateBPM ∧
    (sampleStep d1 d2 now s).rrIntervalSamples = s.rrIntervalSamples ∧
    (sampleStep d1 d2 now s).lastPacketTime = s.lastPacketTime ∧
    (sampleStep d1 d2 now s).lastBatteryTime = s.lastBatteryTime ∧
    (sampleStep d1 d2 now s).arrhythmiaMode = s.arrhythmiaMode ∧
    (sampleStep d1 d2 now s).arrhythmiaStart = s.arrhythmiaStart ∧
    (sampleStep d1 d2 now s).lastPotValue = s.lastPotValue ∧
    (sampleStep d1 d2 now s).lastPotRead = s.lastPotRead := by
  unfold sampleStep beatCheck
  split <;> simp

theorem emitSamples_fields (mvs : ℕ → ℚ) (r1 r2 : ℕ → ℤ) (now : ℕ) :
    ∀ (n i0 : ℕ) (s : DeviceState),
    (emitSamples mvs r1 r2 now i0 n s).2.deviceConnected = s.deviceConnected ∧
    (emitSamples mvs r1 r2 now i0 n s).2.oldDeviceConnected = s.oldDeviceConnected ∧
    (emitSamples mvs r1 r2 now i0 n s).2.sequenceNumber = s.sequenceNumber ∧
    (emitSamples mvs r1 r2 now i0 n s).2.batteryLevel = s.batteryLevel ∧
    (emitSamples mvs r1 r2 now i0 n s).2.heartRateBPM = s.heartRateBPM ∧
    (emitSamples mvs r1 r2 now i0 n s).2.rrIntervalSamples = s.rrIntervalSamples ∧
    (emitSamples mvs r1 r2 now i0 n s).2.lastPacketTime = s.lastPacketTime ∧
    (emitSamples mvs r1 r2 now i0 n s).2.lastBatteryTime = s.lastBatteryTime ∧
    (emitSamples mvs r1 r2 now i0 n s).2.arrhythmiaMode = s.arrhythmiaMode ∧
    (emitSamples mvs r1 r2 now i0 n s).2.arrhythmiaStart = s.arrhythmiaStart ∧
    (emitSamples mvs r1 r2 now i0 n s).2.lastPotValue = s.lastPotValue ∧
    (emitSamples mvs r1 r2 now i0 n s).2.lastPotRead = s.lastPotRead := by
  intro n
  induction n with
  | zero => intro i0 s; simp [emitSamples]
  | succ n ih =>
    intro i0 s
    obtain ⟨a1, a2, a3, a4, a5, a6, a7, a8, a9, a10, a11, a12⟩ :=
      sampleStep_fields (r1 i0) (r2 i0) now s
    obtain ⟨b1, b2, b3, b4, b5, b6, b7, b8, b9, b10, b11, b12⟩ :=
      ih (i0 + 1) (sampleStep (r1 i0) (r2 i0) now s)
    simp only [emitSamples]
    exact ⟨b1.trans a1, b2.trans a2, b3.trans a3, b4.trans a4, b5.trans a5,
      b6.trans a6, b7.trans a7, b8.trans a8, b9.trans a9, b10.trans a10,
      b11.trans a11, b12.trans a12⟩

/-- C9: the emission sequence number is a uint16 wrapping modulo 65536:
after encoding a packet the counter becomes `(seq + 1) % 65536`, and
encoding at 65535 puts `0xFF 0xFF` in the header and leaves the counter at
`0`, not 65536 and not an error. -/
theorem sequenceNumber_wrap (mvs : ℕ → ℚ) (r1 r2 : ℕ → ℤ) (now : ℕ)
    (s : DeviceState) (h : s.sequenceNumber = 65535) :
    (sendECGPacket mvs r1 r2 now s).2.sequenceNumber = 0 ∧
    (sendECGPacket mvs r1 r2 now s).1.getD 0 9 = 255 ∧
    (sendECGPacket mvs r1 r2 now s).1.getD 1 9 = 255 ∧
    (∀ t : DeviceState,
      (sendECGPacket mvs r1 r2 now t).2.sequenceNumber =
        (t.sequenceNumber + 1) % 65536) := by
  have key : ∀ t : DeviceState,
      (sendECGPacket mvs r1 r2 now t).2.sequenceNumber =
        (t.sequenceNumber + 1) % 65536 := by
    intro t
    have hf := (emitSamples_fields mvs r1 r2 now 8 0 t).2.2.1
    unfold sendECGPacket
    simp [hf]
  refine ⟨?_, ?_, ?_, key⟩
  · rw [key s, h]
  · unfold sendECGPacket
    simp [encodePacket, h]
  · unfold sendECGPacket
    simp [encodePacket, h]

/-- Concrete state for the C9 witness: the device one packet before
sequence wraparound. -/
def c9State : DeviceState := { initState with sequenceNumber := 65535 }

/-- Witness for C9: at sequence number 65535 the next counter value is 0
and the header carries `0xFF 0xFF`. -/
theorem sequenceNumber_wrap_witness :
    (sendECGPacket (fun _ => 0) (fun _ => 0) (fun _ => 0) 0 c9State).2.sequenceNumber = 0 ∧
    (sendECGPacket (fun _ => 0) (fun _ => 0) (fun _ => 0) 0 c9State).1.getD 0 9 = 255 ∧
    (sendECGPacket (fun _ => 0) (fun _ => 0) (fun _ => 0) 0 c9State).1.getD 1 9 = 255 := by
  have h := sequenceNumber_wrap (fun _ => 0) (fun _ => 0) (fun _ => 0) 0 c9State rfl
  exact ⟨h.1, h.2.1, h.2.2.1⟩

/-! ### C3: the beat-boundary step (corrected) -/

/-- Concrete state for C3: the initial 72 BPM configuration
(`rrIntervalSamples = nextRPeakAt = 625/3 ≈ 208.33`) at sample index 208,
so the incremented index 209 is past the beat boundary. -/
def c3State : DeviceState := { initState with sampleIndex := 208 }

/-- C3 counterexample: with draw `d1 = 49` (variability term
`v = 4.9% × rrInterval ≠ 0`) at a sample crossing the boundary, the stored
R-R interval is left unchanged by the code, whereas the claim says it
becomes `rrInterval + v`. -/
theorem beatBoundary_counterexample :
    c3State.nextRPeakAt ≤ (((c3State.sampleIndex + 1) % 4294967296 : ℕ) : ℚ) ∧
    (sampleStep 49 0 1000 c3State).rrIntervalSamples =
      c3State.rrIntervalSamples ∧
    c3State.rrIntervalSamples + (49 : ℚ) / 1000 * c3State.rrIntervalSamples ≠
      c3State.rrIntervalSamples := by
  have hfl : (⌊(60 / 72 * 250 : ℚ)⌋).toNat = 208 := by norm_num; rfl
  refine ⟨?_, ?_, ?_⟩
  · simp only [c3State, initState]
    norm_num
  · simp only [sampleStep, beatCheck, c3State, initState]
    rw [hfl]
    norm_num
  · simp only [c3State, initState]
    norm_num

/-- C3 amended: whenever the incremented sample index reaches or exceeds
the next beat boundary, the controller draws `d1` from the integer range
−50..49 of `random(-50, 50)` giving `v = d1/1000 × rrInterval` (so
`−5% × rrInterval ≤ v < +5% × rrInterval`, plus, in fault mode, an extra
`d2/1000 × rrInterval` term), sets the next beat boundary to the
incremented index plus `rrInterval + v (+ extra)`, leaves the stored R-R
interval unchanged, and activates the indicator LED. -/
theorem beatBoundary_step (d1 d2 : ℤ) (now : ℕ) (s : DeviceState)
    (hd1l : -50 ≤ d1) (hd1u : d1 ≤ 49) (hrr : 0 < s.rrIntervalSamples)
    (hidx : s.nextRPeakAt ≤ (((s.sampleIndex + 1) % 4294967296 : ℕ) : ℚ)) :
    (sampleStep d1 d2 now s).sampleIndex = (s.sampleIndex + 1) % 4294967296 ∧
    (sampleStep d1 d2 now s).rrIntervalSamples = s.rrIntervalSamples ∧
    (sampleStep d1 d2 now s).ledState = true ∧
    (sampleStep d1 d2 now s).lastLEDTime = now ∧
    (sampleStep d1 d2 now s).nextRPeakAt =
      (((s.sampleIndex + 1) % 4294967296 : ℕ) : ℚ) +
        (s.rrIntervalSamples + (d1 : ℚ) / 1000 * s.rrIntervalSamples +
          (if s.arrhythmiaMode then (d2 : ℚ) / 1000 * s.rrIntervalSamples
           else 0)) ∧
    -(5 / 100) * s.rrIntervalSamples ≤ (d1 : ℚ) / 1000 * s.rrIntervalSamples ∧
    (d1 : ℚ) / 1000 * s.rrIntervalSamples < (5 / 100) * s.rrIntervalSamples := by
  have hcast : (⌊s.nextRPeakAt⌋ : ℤ) ≤ ((s.sampleIndex + 1) % 4294967296 : ℕ) := by
    have h1 := Int.floor_le_floor hidx
    rwa [Int.floor_natCast] at h1
  have htrig : ((s.sampleIndex + 1) % 4294967296) ≥ (⌊s.nextRPeakAt⌋).toNat := by
    omega
  have hd1lq : (-50 : ℚ) ≤ (d1 : ℚ) := by exact_mod_cast hd1l
  have hd1uq : (d1 : ℚ) ≤ 49 := by exact_mod_cast hd1u
  unfold sampleStep beatCheck
  rw [if_pos htrig]
  refine ⟨rfl, rfl, rfl, rfl, rfl, ?_, ?_⟩
  · nlinarith
  · nlinarith

/-- Witness for C3's amended statement at the concrete crossing state. -/
theorem beatBoundary_step_witness :
    (sampleStep 49 0 1000 c3State).ledState = true ∧
    (sampleStep 49 0 1000 c3State).rrIntervalSamples =
      c3State.rrIntervalSamples ∧
    (49 : ℚ) / 1000 * c3State.rrIntervalSamples <
      (5 / 100) * c3State.rrIntervalSamples := by
  have h := beatBoundary_step 49 0 1000 c3State (by norm_num) (by norm_num)
    (by simp only [c3State, initState]; norm_num)
    (by simp only [c3State, initState]; norm_num)
  exact ⟨h.2.2.1, h.2.1, h.2.2.2.2.2.2⟩

/-! ### Per-block preservation infrastructure for `loop()` -/

/-- The five tasks that run after the emission task in one iteration. -/
def loopTail (env : Env) (t : DeviceState) : DeviceState :=
  serialStep env.now env.serialCmd
    (faultTimeoutStep env.now
      (buttonStep env.now env.buttonPressed
        (potStep env.now env.potValue
          (ledStep env.now (batteryStep env.now t)))))

theorem loopStep_eq (env : Env) (s : DeviceState) :
    loopStep env s =
      (loopTail env (emissionStep env (connectionEdge s)).1,
       (emissionStep env (connectionEdge s)).2) := rfl

/-- A state transformer that leaves the session counters alone. -/
def PreservesCounters (f : DeviceState → DeviceState) : Prop :=
  ∀ s, (f s).sequenceNumber = s.sequenceNumber ∧
    (f s).sampleIndex = s.sampleIndex

/-- A state transformer that leaves `heartRateBPM` and
`rrIntervalSamples` alone. -/
def PreservesRate (f : DeviceState → DeviceState) : Prop :=
  ∀ s, (f s).heartRateBPM = s.heartRateBPM ∧
    (f s).rrIntervalSamples = s.rrIntervalSamples

/-- A state transformer that leaves the battery level alone. -/
def PreservesBattery (f : DeviceState → DeviceState) : Prop :=
  ∀ s, (f s).batteryLevel = s.batteryLevel

/-- A state transformer that leaves the fault window alone. -/
def PreservesFault (f : DeviceState → DeviceState) : Prop :=
  ∀ s, (f s).arrhythmiaMode = s.arrhythmiaMode ∧
    (f s).arrhythmiaStart = s.arrhythmiaStart

theorem preservesCounters_comp {f g : DeviceState → DeviceState}
    (hf : PreservesCounters f) (hg : PreservesCounters g) :
    PreservesCounters (fun s => f (g s)) := fun s =>
  ⟨((hf (g s)).1).trans (hg s).1, ((hf (g s)).2).trans (hg s).2⟩

theorem preservesRate_comp {f g : DeviceState → DeviceState}
    (hf : PreservesRate f) (hg : PreservesRate g) :
    PreservesRate (fun s => f (g s)) := fun s =>
  ⟨((hf (g s)).1).trans (hg s).1, ((hf (g s)).2).trans (hg s).2⟩

theorem preservesFault_comp {f g : DeviceState → DeviceState}
    (hf : PreservesFault f) (hg : PreservesFault g) :
    PreservesFault (fun s => f (g s)) := fun s =>
  ⟨((hf (g s)).1).trans (hg s).1, ((hf (g s)).2).trans (hg s).2⟩

theorem batteryStep_counters (now : ℕ) : PreservesCounters (batteryStep now) := by
  intro s
  unfold batteryStep
  split <;> simp

theorem ledStep_counters (now : ℕ) : PreservesCounters (ledStep now) := by
  intro s
  unfold ledStep
  split <;> simp

theorem potStep_counters (now : ℕ) (pot : ℤ) :
    PreservesCounters (potStep now pot) := by
  intro s
  unfold potStep updateHeartRateFromPot
  split
  · split <;> simp
  · simp

theorem buttonStep_counters (now : ℕ) (b : Bool) :
    PreservesCounters (buttonStep now b) := by
  intro s
  unfold buttonStep
  split <;> simp

theorem faultTimeoutStep_counters (now : ℕ) :
    PreservesCounters (faultTimeoutStep now) := by
  intro s
  unfold faultTimeoutStep
  split <;> simp

theorem applyCommand_counters (c : Char) (now : ℕ) :
    PreservesCounters (applyCommand c now) := by
  intro s
  unfold applyCommand
  split_ifs <;> simp

theorem serialStep_counters (now : ℕ) (cmd : Option Char) :
    PreservesCounters (serialStep now cmd) := by
  intro s
  cases cmd with
  | none => exact ⟨rfl, rfl⟩
  | some c => exact applyCommand_counters c now s

theorem loopTail_counters (env : Env) : PreservesCounters (loopTail env) := by
  have h := preservesCounters_comp (serialStep_counters env.now env.serialCmd)
    (preservesCounters_comp (faultTimeoutStep_counters env.now)
      (preservesCounters_comp (buttonStep_counters env.now env.buttonPressed)
        (preservesCounters_comp (potStep_counters env.now env.potValue)
          (preservesCounters_comp (ledStep_counters env.now)
            (batteryStep_counters env.now)))))
  exact fun s => h s

theorem batteryStep_rate (now : ℕ) : PreservesRate (batteryStep now) := by
  intro s
  unfold batteryStep
  split <;> simp

theorem ledStep_rate (now : ℕ) : PreservesRate (ledStep now) := by
  intro s
  unfold ledStep
  split <;> simp

theorem buttonStep_rate (now : ℕ) (b : Bool) :
    PreservesRate (buttonStep now b) := by
  intro s
  unfold buttonStep
  split <;> simp

theorem faultTimeoutStep_rate (now : ℕ) : PreservesRate (faultTimeoutStep now) := by
  intro s
  unfold faultTimeoutStep
  split <;> simp

theorem batteryStep_fault (now : ℕ) : PreservesFault (batteryStep now) := by
  intro s
  unfold batteryStep
  split <;> simp

theorem ledStep_fault (now : ℕ) : PreservesFault (ledStep now) := by
  intro s
  unfold ledStep
  split <;> simp

theorem potStep_fault (now : ℕ) (pot : ℤ) : PreservesFault (potStep now pot) := by
  intro s
  unfold potStep updateHeartRateFromPot
  split
  · split <;> simp
  · simp

theorem potStep_battery (now : ℕ) (pot : ℤ) :
    PreservesBattery (potStep now pot) := by
  intro s
  unfold potStep updateHeartRateFromPot
  split
  · split <;> simp
  · simp

theorem ledStep_battery (now : ℕ) : PreservesBattery (ledStep now) := by
  intro s
  unfold ledStep
  split <;> simp

theorem buttonStep_battery (now : ℕ) (b : Bool) :
    PreservesBattery (buttonStep now b) := by
  intro s
  unfold buttonStep
  split <;> simp

theorem faultTimeoutStep_battery (now : ℕ) :
    PreservesBattery (faultTimeoutStep now) := by
  intro s
  unfold faultTimeoutStep
  split <;> simp

theorem connectionEdge_rate (s : DeviceState) :
    (connectionEdge s).heartRateBPM = s.heartRateBPM ∧
    (connectionEdge s).rrIntervalSamples = s.rrIntervalSamples := by
  obtain ⟨conn, old, f3, f4, f5, f6, f7, f8, f9, f10, f11, f12, f13, f14,
    f15, f16⟩ := s
  cases conn <;> cases old <;> simp [connectionEdge]

theorem connectionEdge_battery (s : DeviceState) :
    (connectionEdge s).batteryLevel = s.batteryLevel := by
  obtain ⟨conn, old, f3, f4, f5, f6, f7, f8, f9, f10, f11, f12, f13, f14,
    f15, f16⟩ := s
  cases conn <;> cases old <;> simp [connectionEdge]

theorem connectionEdge_fault (s : DeviceState) :
    (connectionEdge s).arrhythmiaMode = s.arrhythmiaMode ∧
    (connectionEdge s).arrhythmiaStart = s.arrhythmiaStart := by
  obtain ⟨conn, old, f3, f4, f5, f6, f7, f8, f9, f10, f11, f12, f13, f14,
    f15, f16⟩ := s
  cases conn <;> cases old <;> simp [connectionEdge]

theorem emissionStep_rate (env : Env) (s : DeviceState) :
    (emissionStep env s).1.heartRateBPM = s.heartRateBPM ∧
    (emissionStep env s).1.rrIntervalSamples = s.rrIntervalSamples := by
  unfold emissionStep sendECGPacket
  split
  · have h := emitSamples_fields env.mvs env.r1 env.r2 env.now 8 0
      { s with lastPacketTime := env.now }
    simp only []
    exact ⟨h.2.2.2.2.1, h.2.2.2.2.2.1⟩
  · exact ⟨rfl, rfl⟩

theorem emissionStep_battery (env : Env) (s : DeviceState) :
    (emissionStep env s).1.batteryLevel = s.batteryLevel := by
  unfold emissionStep sendECGPacket
  split
  · have h := emitSamples_fields env.mvs env.r1 env.r2 env.now 8 0
      { s with lastPacketTime := env.now }
    simp only []
    exact h.2.2.2.1
  · rfl

theorem emissionStep_fault (env : Env) (s : DeviceState) :
    (emissionStep env s).1.arrhythmiaMode = s.arrhythmiaMode ∧
    (emissionStep env s).1.arrhythmiaStart = s.arrhythmiaStart := by
  unfold emissionStep sendECGPacket
  split
  · have h := emitSamples_fields env.mvs env.r1 env.r2 env.now 8 0
      { s with lastPacketTime := env.now }
    simp only []
    exact ⟨h.2.2.2.2.2.2.2.2.1, h.2.2.2.2.2.2.2.2.2.1⟩
  · exact ⟨rfl, rfl⟩

theorem emissionStep_none (env : Env) (s : DeviceState)
    (h : (emissionStep env s).2 = none) : (emissionStep env s).1 = s := by
  unfold emissionStep at h ⊢
  split at h
  · simp at h
  · split
    · simp_all
    · rfl

/-! ### Connection-edge case analysis -/

theorem connectionEdge_connect (s : DeviceState)
    (h1 : s.deviceConnected = true) (h2 : s.oldDeviceConnected = false) :
    connectionEdge s =
      { s with sequenceNumber := 0
               sampleIndex := 0
               nextRPeakAt := s.rrIntervalSamples
               oldDeviceConnected := true } := by
  obtain ⟨conn, old, f3, f4, f5, f6, f7, f8, f9, f10, f11, f12, f13, f14,
    f15, f16⟩ := s
  subst h1
  subst h2
  simp [connectionEdge]

theorem connectionEdge_disconnect (s : DeviceState)
    (h1 : s.deviceConnected = false) (h2 : s.oldDeviceConnected = true) :
    connectionEdge s = { s with oldDeviceConnected := false } := by
  obtain ⟨conn, old, f3, f4, f5, f6, f7, f8, f9, f10, f11, f12, f13, f14,
    f15, f16⟩ := s
  subst h1
  subst h2
  simp [connectionEdge]

theorem connectionEdge_noedge (s : DeviceState)
    (h : s.deviceConnected = s.oldDeviceConnected) : connectionEdge s = s := by
  obtain ⟨conn, old, f3, f4, f5, f6, f7, f8, f9, f10, f11, f12, f13, f14,
    f15, f16⟩ := s
  cases conn <;> cases old <;> simp_all [connectionEdge]

theorem connectionEdge_counters_of_noconnect (s : DeviceState)
    (h : ¬ (s.deviceConnected = true ∧ s.oldDeviceConnected = false)) :
    (connectionEdge s).sequenceNumber = s.sequenceNumber ∧
    (connectionEdge s).sampleIndex = s.sampleIndex := by
  obtain ⟨conn, old, f3, f4, f5, f6, f7, f8, f9, f10, f11, f12, f13, f14,
    f15, f16⟩ := s
  cases conn <;> cases old <;> simp_all [connectionEdge]

theorem connectionEdge_counters_zero (s : DeviceState)
    (h1 : s.sequenceNumber = 0) (h2 : s.sampleIndex = 0) :
    (connectionEdge s).sequenceNumber = 0 ∧
    (connectionEdge s).sampleIndex = 0 := by
  obtain ⟨conn, old, f3, f4, f5, f6, f7, f8, f9, f10, f11, f12, f13, f14,
    f15, f16⟩ := s
  cases conn <;> cases old <;> simp_all [connectionEdge]

/-! ### Emission characterization -/

theorem emissionStep_some (env : Env) (s : DeviceState) (p : List ℕ)
    (h : (emissionStep env s).2 = some p) :
    p = (sendECGPacket env.mvs env.r1 env.r2 env.now
          { s with lastPacketTime := env.now }).1 := by
  unfold emissionStep at h
  split at h
  · simp only [Option.some.injEq] at h
    exact h.symm
  · simp at h

theorem sendECGPacket_header (mvs : ℕ → ℚ) (r1 r2 : ℕ → ℤ) (now : ℕ)
    (s : DeviceState) :
    (sendECGPacket mvs r1 r2 now s).1.getD 0 9 = s.sequenceNumber % 256 ∧
    (sendECGPacket mvs r1 r2 now s).1.getD 1 9 =
      s.sequenceNumber / 256 % 256 ∧
    (sendECGPacket mvs r1 r2 now s).1.getD 4 9 =
      byteLo (mvToADC (mvs s.sampleIndex)) ∧
    (sendECGPacket mvs r1 r2 now s).1.getD 5 9 =
      byteHi (mvToADC (mvs s.sampleIndex)) :=
  ⟨rfl, rfl, rfl, rfl⟩

theorem loopStep_noEmit_counters (env : Env) (s : DeviceState)
    (h : (loopStep env s).2 = none)
    (h2 : ¬ (s.deviceConnected = true ∧ s.oldDeviceConnected = false)) :
    (loopStep env s).1.sequenceNumber = s.sequenceNumber ∧
    (loopStep env s).1.sampleIndex = s.sampleIndex := by
  have hp : (emissionStep env (connectionEdge s)).2 = none := h
  have he := emissionStep_none env (connectionEdge s) hp
  have hc := connectionEdge_counters_of_noconnect s h2
  have ht := loopTail_counters env (emissionStep env (connectionEdge s)).1
  rw [loopStep_eq]
  refine ⟨?_, ?_⟩
  · rw [ht.1, he, hc.1]
  · rw [ht.2, he, hc.2]

theorem loopStep_noEmit_zero (env : Env) (s : DeviceState)
    (h1 : s.sequenceNumber = 0) (h2 : s.sampleIndex = 0)
    (h : (loopStep env s).2 = none) :
    (loopStep env s).1.sequenceNumber = 0 ∧
    (loopStep env s).1.sampleIndex = 0 := by
  have hp : (emissionStep env (connectionEdge s)).2 = none := h
  have he := emissionStep_none env (connectionEdge s) hp
  have hc := connectionEdge_counters_zero s h1 h2
  have ht := loopTail_counters env (emissionStep env (connectionEdge s)).1
  rw [loopStep_eq]
  refine ⟨?_, ?_⟩
  · rw [ht.1, he, hc.1]
  · rw [ht.2, he, hc.2]

theorem loopTrace_noEmit_zero :
    ∀ (envs : List Env) (s : DeviceState), s.sequenceNumber = 0 →
    s.sampleIndex = 0 → ((loopTrace envs s).2.all Option.isNone) →
    (loopTrace envs s).1.sequenceNumber = 0 ∧
    (loopTrace envs s).1.sampleIndex = 0 := by
  intro envs
  induction envs with
  | nil => intro s h1 h2 _; exact ⟨h1, h2⟩
  | cons env rest ih =>
    intro s h1 h2 hall
    simp only [loopTrace, List.all_cons, Bool.and_eq_true] at hall ⊢
    have hnone : (loopStep env s).2 = none :=
      Option.eq_none_iff_forall_not_mem.mpr
        (fun a ha => by simp [Option.isNone_iff_eq_none.mp hall.1] at ha)
    have hz := loopStep_noEmit_zero env s h1 h2 hnone
    exact ih (loopStep env s).1 hz.1 hz.2 hall.2

/-- C4: the session counters are reset to 0 exactly on the
disconnected→connected edge: the edge handler zeroes both on a connect
edge, leaves both untouched on a disconnect edge and is the identity when
no edge occurred; a loop iteration that emits no packet and sees no connect
edge preserves both counters; after a connect edge, as long as no packet
has been emitted the counters stay 0, so the first emitted packet carries
sequence number 0 in its header and starts sampling at index 0. -/
theorem counters_reset_on_connect :
    (∀ s : DeviceState, s.deviceConnected = true →
      s.oldDeviceConnected = false →
      (connectionEdge s).sequenceNumber = 0 ∧
      (connectionEdge s).sampleIndex = 0) ∧
    (∀ s : DeviceState, s.deviceConnected = false →
      s.oldDeviceConnected = true →
      (connectionEdge s).sequenceNumber = s.sequenceNumber ∧
      (connectionEdge s).sampleIndex = s.sampleIndex) ∧
    (∀ s : DeviceState, s.deviceConnected = s.oldDeviceConnected →
      connectionEdge s = s) ∧
    (∀ (env : Env) (s : DeviceState), (loopStep env s).2 = none →
      ¬ (s.deviceConnected = true ∧ s.oldDeviceConnected = false) →
      (loopStep env s).1.sequenceNumber = s.sequenceNumber ∧
      (loopStep env s).1.sampleIndex = s.sampleIndex) ∧
    (∀ (env : Env) (envs : List Env) (s : DeviceState),
      s.deviceConnected = true → s.oldDeviceConnected = false →
      ((loopTrace (env :: envs) s).2.all Option.isNone) →
      (loopTrace (env :: envs) s).1.sequenceNumber = 0 ∧
      (loopTrace (env :: envs) s).1.sampleIndex = 0) ∧
    (∀ (env : Env) (s : DeviceState) (p : List ℕ),
      s.sequenceNumber = 0 → s.sampleIndex = 0 →
      (loopStep env s).2 = some p →
      p.getD 0 9 = 0 ∧ p.getD 1 9 = 0 ∧
      p.getD 4 9 = byteLo (mvToADC (env.mvs 0)) ∧
      p.getD 5 9 = byteHi (mvToADC (env.mvs 0))) := by
  refine ⟨?_, ?_, ?_, ?_, ?_, ?_⟩
  · intro s h1 h2
    rw [connectionEdge_connect s h1 h2]
    exact ⟨rfl, rfl⟩
  · intro s h1 h2
    rw [connectionEdge_disconnect s h1 h2]
    exact ⟨rfl, rfl⟩
  · exact connectionEdge_noedge
  · exact loopStep_noEmit_counters
  · intro env envs s h1 h2 hall
    simp only [loopTrace, List.all_cons, Bool.and_eq_true] at hall ⊢
    have hnone : (loopStep env s).2 = none :=
      Option.isNone_iff_eq_none.mp hall.1
    have hzero : (loopStep env s).1.sequenceNumber = 0 ∧
        (loopStep env s).1.sampleIndex = 0 := by
      have hp : (emissionStep env (connectionEdge s)).2 = none := hnone
      have he := emissionStep_none env (connectionEdge s) hp
      have hc := connectionEdge_connect s h1 h2
      have ht := loopTail_counters env (emissionStep env (connectionEdge s)).1
      rw [loopStep_eq]
      constructor
      · rw [ht.1, he, hc]
      · rw [ht.2, he, hc]
    exact loopTrace_noEmit_zero envs (loopStep env s).1 hzero.1 hzero.2 hall.2
  · intro env s p h1 h2 hp
    have hp2 : (emissionStep env (connectionEdge s)).2 = some p := hp
    have hc := connectionEdge_counters_zero s h1 h2
    have he := emissionStep_some env (connectionEdge s) p hp2
    have hh := sendECGPacket_header env.mvs env.r1 env.r2 env.now
      { connectionEdge s with lastPacketTime := env.now }
    rw [he]
    have hseq : ({ connectionEdge s with
        lastPacketTime := env.now } : DeviceState).sequenceNumber = 0 := hc.1
    have hidx : ({ connectionEdge s with
        lastPacketTime := env.now } : DeviceState).sampleIndex = 0 := hc.2
    rw [hseq] at hh
    rw [hidx] at hh
    exact ⟨hh.1, hh.2.1, hh.2.2.1, hh.2.2.2⟩

/-- Concrete pre-connect state for the C4 witness: stale counters from a
previous session and a freshly raised connection flag. -/
def c4State : DeviceState :=
  { initState with deviceConnected := true
                   oldDeviceConnected := false
                   sequenceNumber := 1234
                   sampleIndex := 987 }

/-- Witness for C4: the connect edge zeroes the stale counters. -/
theorem counters_reset_on_connect_witness :
    (connectionEdge c4State).sequenceNumber = 0 ∧
    (connectionEdge c4State).sampleIndex = 0 :=
  counters_reset_on_connect.1 c4State rfl rfl

/-! ### Heart-rate invariant -/

/-- The rate invariant maintained by the firmware: BPM stays in the
40–180 design range and the R-R interval is the last recomputation
`(60.0 / heartRateBPM) * SAMPLE_RATE`. -/
def RateInv (s : DeviceState) : Prop :=
  40 ≤ s.heartRateBPM ∧ s.heartRateBPM ≤ 180 ∧
  s.rrIntervalSamples = 60 / s.heartRateBPM * 250

theorem rateInv_of_fields {s t : DeviceState}
    (h1 : t.heartRateBPM = s.heartRateBPM)
    (h2 : t.rrIntervalSamples = s.rrIntervalSamples)
    (h : RateInv s) : RateInv t := by
  unfold RateInv at h ⊢
  rw [h1, h2]
  exact h

theorem newBPM_bounds (pot : ℤ) (h0 : 0 ≤ pot) (h4 : pot ≤ 4095) :
    40 ≤ 40 + (pot : ℚ) / 4095 * 140 ∧
    40 + (pot : ℚ) / 4095 * 140 ≤ 180 := by
  have hq0 : (0 : ℚ) ≤ (pot : ℚ) := by exact_mod_cast h0
  have hq4 : (pot : ℚ) ≤ 4095 := by exact_mod_cast h4
  have hx0 : (0 : ℚ) ≤ (pot : ℚ) / 4095 := by positivity
  have hx1 : (pot : ℚ) / 4095 ≤ 1 := (div_le_one (by norm_num)).mpr hq4
  constructor <;> nlinarith

theorem updateHeartRateFromPot_rateInv (pot : ℤ) (h0 : 0 ≤ pot)
    (h4 : pot ≤ 4095) (s : DeviceState) (h : RateInv s) :
    RateInv (updateHeartRateFromPot pot s) := by
  unfold updateHeartRateFromPot
  split
  · exact h
  · dsimp only
    obtain ⟨hb1, hb2⟩ := newBPM_bounds pot h0 h4
    obtain ⟨g1, g2, _⟩ := h
    refine ⟨by nlinarith, by nlinarith, rfl⟩

theorem applyCommand_rateInv (c : Char) (now : ℕ) (s : DeviceState)
    (h : RateInv s) : RateInv (applyCommand c now s) := by
  obtain ⟨g1, g2, g3⟩ := h
  unfold applyCommand
  split_ifs
  · exact ⟨g1, g2, g3⟩
  · exact ⟨g1, g2, g3⟩
  · exact ⟨le_min (by norm_num) (by linarith), min_le_left _ _, rfl⟩
  · exact ⟨le_max_left _ _, max_le (by norm_num) (by linarith), rfl⟩
  · exact ⟨g1, g2, g3⟩

theorem serialStep_rateInv (now : ℕ) (cmd : Option Char) (s : DeviceState)
    (h : RateInv s) : RateInv (serialStep now cmd s) := by
  cases cmd with
  | none => exact h
  | some c => exact applyCommand_rateInv c now s h

theorem potStep_rateInv (now : ℕ) (pot : ℤ) (h0 : 0 ≤ pot) (h4 : pot ≤ 4095)
    (s : DeviceState) (h : RateInv s) : RateInv (potStep now pot s) := by
  unfold potStep
  split
  · exact updateHeartRateFromPot_rateInv pot h0 h4 _ h
  · exact h

theorem loopStep_rateInv (env : Env) (s : DeviceState) (h : RateInv s)
    (h0 : 0 ≤ env.potValue) (h4 : env.potValue ≤ 4095) :
    RateInv (loopStep env s).1 := by
  rw [loopStep_eq]
  unfold loopTail
  apply serialStep_rateInv
  apply rateInv_of_fields (faultTimeoutStep_rate env.now _).1
    (faultTimeoutStep_rate env.now _).2
  apply rateInv_of_fields (buttonStep_rate env.now env.buttonPressed _).1
    (buttonStep_rate env.now env.buttonPressed _).2
  apply potStep_rateInv env.now env.potValue h0 h4
  apply rateInv_of_fields (ledStep_rate env.now _).1 (ledStep_rate env.now _).2
  apply rateInv_of_fields (batteryStep_rate env.now _).1
    (batteryStep_rate env.now _).2
  apply rateInv_of_fields (emissionStep_rate env _).1 (emissionStep_rate env _).2
  exact rateInv_of_fields (connectionEdge_rate s).1 (connectionEdge_rate s).2 h

/-- C5: the R-R interval is strictly positive in every reachable state:
the invariant (BPM in [40,180] and `rrInterval = 60/BPM × 250`) holds
initially, forces `rrInterval > 0`, and is preserved by every loop
iteration — the beat-variability step never touches the stored interval,
the operator-input smoothing keeps BPM a convex combination of in-range
values, and the rate commands clamp into [40,180]. -/
theorem rrInterval_positive :
    RateInv initState ∧
    (∀ s : DeviceState, RateInv s → 0 < s.rrIntervalSamples) ∧
    (∀ (env : Env) (s : DeviceState), RateInv s → 0 ≤ env.potValue →
      env.potValue ≤ 4095 → RateInv (loopStep env s).1) := by
  refine ⟨?_, ?_, loopStep_rateInv⟩
  · refine ⟨by norm_num [initState], by norm_num [initState], ?_⟩
    norm_num [initState]
  · intro s h
    have hbpm : 0 < s.heartRateBPM := by
      have := h.1
      linarith
    rw [h.2.2]
    positivity

/-- Environment for the C5 witness: mid-scale potentiometer, a pending
rate-increment command, all periodic tasks due. -/
def c5Env : Env :=
  { now := 600
    mvs := fun _ => 0
    r1 := fun _ => 0
    r2 := fun _ => 0
    potValue := 2000
    buttonPressed := false
    serialCmd := some '+' }

/-- Witness for C5 at the initial state and a concrete busy iteration. -/
theorem rrInterval_positive_witness :
    0 < initState.rrIntervalSamples ∧ RateInv (loopStep c5Env initState).1 :=
  ⟨rrInterval_positive.2.1 initState rrInterval_positive.1,
   rrInterval_positive.2.2 c5Env initState rrInterval_positive.1
     (by norm_num [c5Env]) (by norm_num [c5Env])⟩

/-- C8: each operator-input poll ignores readings within the 50-count
hysteresis threshold of the previous reading (only the stored previous
reading advances); any other reading is mapped linearly from the 0–4095
ADC range into [40,180] BPM, blended by exponential smoothing
`rate = rate×0.9 + newRate×0.1`, and the R-R interval is recomputed as
`60/BPM × 250` from the smoothed rate. -/
theorem updateHeartRateFromPot_spec (pot : ℤ) (s : DeviceState) :
    ((pot - s.lastPotValue).natAbs < 50 → s.lastPotValue ≠ -1 →
      updateHeartRateFromPot pot s = { s with lastPotValue := pot }) ∧
    (¬ ((pot - s.lastPotValue).natAbs < 50 ∧ s.lastPotValue ≠ -1) →
      (updateHeartRateFromPot pot s).heartRateBPM =
        s.heartRateBPM * (9 / 10) + (40 + (pot : ℚ) / 4095 * 140) * (1 / 10) ∧
      (updateHeartRateFromPot pot s).rrIntervalSamples =
        60 / (updateHeartRateFromPot pot s).heartRateBPM * 250) ∧
    (0 ≤ pot → pot ≤ 4095 →
      40 ≤ 40 + (pot : ℚ) / 4095 * 140 ∧
      40 + (pot : ℚ) / 4095 * 140 ≤ 180) := by
  refine ⟨?_, ?_, newBPM_bounds pot⟩
  · intro h1 h2
    unfold updateHeartRateFromPot
    rw [if_pos ⟨h1, h2⟩]
  · intro hn
    unfold updateHeartRateFromPot
    rw [if_neg hn]
    exact ⟨rfl, rfl⟩

/-- State for the C8 hysteresis witness: previous reading 2000. -/
def c8State : DeviceState := { initState with lastPotValue := 2000 }

/-- Witness for C8: a reading 30 counts away is ignored (rate and R-R
unchanged), while from the initial state (`lastPotValue = -1`) a mid-scale
reading is smoothed into the rate and the linear map stays in range. -/
theorem updateHeartRateFromPot_spec_witness :
    updateHeartRateFromPot 2030 c8State = { c8State with lastPotValue := 2030 } ∧
    (updateHeartRateFromPot 2000 initState).heartRateBPM =
      initState.heartRateBPM * (9 / 10) +
        (40 + (2000 : ℚ) / 4095 * 140) * (1 / 10) ∧
    40 ≤ 40 + (2000 : ℚ) / 4095 * 140 ∧
    40 + (2000 : ℚ) / 4095 * 140 ≤ 180 := by
  have h1 := (updateHeartRateFromPot_spec 2030 c8State).1
    (by norm_num [c8State, initState]) (by norm_num [c8State, initState])
  have h2 := (updateHeartRateFromPot_spec 2000 initState).2.1
    (by norm_num [initState])
  have h3 := (updateHeartRateFromPot_spec 2000 initState).2.2
    (by norm_num) (by norm_num)
  exact ⟨h1, h2.1, h3.1, h3.2⟩

theorem applyCommand_bpm_bounds (c : Char) (now : ℕ) (s : DeviceState)
    (h40 : 40 ≤ s.heartRateBPM) (h180 : s.heartRateBPM ≤ 180) :
    40 ≤ (applyCommand c now s).heartRateBPM ∧
    (applyCommand c now s).heartRateBPM ≤ 180 := by
  unfold applyCommand
  split_ifs
  · exact ⟨h40, h180⟩
  · exact ⟨h40, h180⟩
  · exact ⟨le_min (by norm_num) (by linarith), min_le_left _ _⟩
  · exact ⟨le_max_left _ _, max_le (by norm_num) (by linarith)⟩
  · exact ⟨h40, h180⟩

/-- C10: from any rate in [40,180], the `+` command sets
`min(180, rate+10)` and the `-` command sets `max(40, rate−10)`, each
immediately recomputing the R-R interval as `60/BPM × 250` from the
clamped rate, and any sequence of serial commands keeps the rate
within [40,180]. -/
theorem rateCommands_clamped (now : ℕ) (s : DeviceState)
    (h40 : 40 ≤ s.heartRateBPM) (h180 : s.heartRateBPM ≤ 180) :
    (applyCommand '+' now s).heartRateBPM = min 180 (s.heartRateBPM + 10) ∧
    (applyCommand '-' now s).heartRateBPM = max 40 (s.heartRateBPM - 10) ∧
    (applyCommand '+' now s).rrIntervalSamples =
      60 / (applyCommand '+' now s).heartRateBPM * 250 ∧
    (applyCommand '-' now s).rrIntervalSamples =
      60 / (applyCommand '-' now s).heartRateBPM * 250 ∧
    40 ≤ (applyCommand '+' now s).heartRateBPM ∧
    (applyCommand '+' now s).heartRateBPM ≤ 180 ∧
    40 ≤ (applyCommand '-' now s).heartRateBPM ∧
    (applyCommand '-' now s).heartRateBPM ≤ 180 ∧
    (∀ cs : List Char,
      40 ≤ (cs.foldl (fun t c => applyCommand c now t) s).heartRateBPM ∧
      (cs.foldl (fun t c => applyCommand c now t) s).heartRateBPM ≤ 180) := by
  have hfold : ∀ (cs : List Char) (t : DeviceState), 40 ≤ t.heartRateBPM →
      t.heartRateBPM ≤ 180 →
      40 ≤ (cs.foldl (fun u c => applyCommand c now u) t).heartRateBPM ∧
      (cs.foldl (fun u c => applyCommand c now u) t).heartRateBPM ≤ 180 := by
    intro cs
    induction cs with
    | nil => intro t g1 g2; exact ⟨g1, g2⟩
    | cons c rest ih =>
      intro t g1 g2
      obtain ⟨b1, b2⟩ := applyCommand_bpm_bounds c now t g1 g2
      simpa using ih (applyCommand c now t) b1 b2
  refine ⟨rfl, rfl, rfl, rfl, ?_, ?_, ?_, ?_, fun cs => hfold cs s h40 h180⟩
  · exact le_min (by norm_num) (by linarith)
  · exact min_le_left _ _
  · exact le_max_left _ _
  · exact max_le (by norm_num) (by linarith)

/-- Witness for C10 at the initial 72 BPM state. -/
theorem rateCommands_clamped_witness :
    (applyCommand '+' 0 initState).heartRateBPM =
      min 180 (initState.heartRateBPM + 10) ∧
    (applyCommand '-' 0 initState).heartRateBPM =
      max 40 (initState.heartRateBPM - 10) ∧
    40 ≤ (([ '+', '+', '-' ] : List Char).foldl
      (fun t c => applyCommand c 0 t) initState).heartRateBPM := by
  have h := rateCommands_clamped 0 initState
    (by norm_num [initState]) (by norm_num [initState])
  exact ⟨h.1, h.2.1, (h.2.2.2.2.2.2.2.2 [ '+', '+', '-' ]).1⟩

/-! ### Battery lemmas -/

theorem batteryStep_le (now : ℕ) (s : DeviceState) :
    (batteryStep now s).batteryLevel ≤ s.batteryLevel := by
  unfold batteryStep
  split
  · simp only []
    split <;> omega
  · exact le_refl _

theorem batteryStep_floor (now : ℕ) (s : DeviceState)
    (h : 5 ≤ s.batteryLevel) : 5 ≤ (batteryStep now s).batteryLevel := by
  unfold batteryStep
  split
  · simp only []
    split <;> omega
  · exact h

theorem applyCommand_battery_of_ne (c : Char) (now : ℕ) (s : DeviceState)
    (h : c ≠ 'r' ∧ c ≠ 'R') :
    (applyCommand c now s).batteryLevel = s.batteryLevel := by
  unfold applyCommand
  split_ifs with h1 h2 h3 h4
  · rfl
  · rcases h2 with h2 | h2 <;> simp [h2] at h
  · rfl
  · rfl
  · rfl

theorem applyCommand_battery_reset (c : Char) (now : ℕ) (s : DeviceState)
    (h : c = 'r' ∨ c = 'R') : (applyCommand c now s).batteryLevel = 95 := by
  rcases h with h | h <;> subst h <;> rfl

theorem serialStep_battery_of_ne (now : ℕ) (cmd : Option Char)
    (s : DeviceState) (h : ∀ c, cmd = some c → c ≠ 'r' ∧ c ≠ 'R') :
    (serialStep now cmd s).batteryLevel = s.batteryLevel := by
  cases cmd with
  | none => rfl
  | some c => exact applyCommand_battery_of_ne c now s (h c rfl)

theorem loopStep_battery (env : Env) (s : DeviceState)
    (h : ∀ c, env.serialCmd = some c → c ≠ 'r' ∧ c ≠ 'R') :
    (loopStep env s).1.batteryLevel ≤ s.batteryLevel ∧
    (5 ≤ s.batteryLevel → 5 ≤ (loopStep env s).1.batteryLevel) := by
  rw [loopStep_eq]
  unfold loopTail
  rw [serialStep_battery_of_ne env.now env.serialCmd _ h,
    faultTimeoutStep_battery env.now _, buttonStep_battery env.now
      env.buttonPressed _, potStep_battery env.now env.potValue _,
    ledStep_battery env.now _]
  have hb := connectionEdge_battery s
  have he := emissionStep_battery env (connectionEdge s)
  constructor
  · calc (batteryStep env.now (emissionStep env (connectionEdge s)).1).batteryLevel
        ≤ (emissionStep env (connectionEdge s)).1.batteryLevel :=
          batteryStep_le env.now _
      _ = s.batteryLevel := by rw [he, hb]
  · intro h5
    apply batteryStep_floor
    rw [he, hb]
    exact h5

theorem loopTrace_battery :
    ∀ (envs : List Env) (s : DeviceState),
    (∀ e ∈ envs, ∀ c, e.serialCmd = some c → c ≠ 'r' ∧ c ≠ 'R') →
    (loopTrace envs s).1.batteryLevel ≤ s.batteryLevel ∧
    (5 ≤ s.batteryLevel → 5 ≤ (loopTrace envs s).1.batteryLevel) := by
  intro envs
  induction envs with
  | nil => intro s _; exact ⟨le_refl _, fun h => h⟩
  | cons env rest ih =>
    intro s hall
    have h1 := loopStep_battery env s
      (hall env (List.mem_cons_self env rest))
    have h2 := ih (loopStep env s).1
      (fun e he => hall e (List.mem_cons_of_mem env he))
    simp only [loopTrace]
    exact ⟨le_trans h2.1 h1.1, fun h5 => h2.2 (h1.2 h5)⟩

/-- C7: the battery level starts at 95, never increases on a decay tick,
never drops below the fixed non-zero floor 5 over any run of loop
iterations without a reset command, and is set back to its start value 95
by the explicit operator reset command (and monotone non-increase without
a reset means it can regain 95 in no other way). -/
theorem battery_monotone_floor :
    initState.batteryLevel = 95 ∧
    (∀ (now : ℕ) (s : DeviceState),
      (batteryStep now s).batteryLevel ≤ s.batteryLevel) ∧
    (∀ (now : ℕ) (s : DeviceState), 5 ≤ s.batteryLevel →
      5 ≤ (batteryStep now s).batteryLevel) ∧
    (∀ (env : Env) (s : DeviceState),
      (∀ c, env.serialCmd = some c → c ≠ 'r' ∧ c ≠ 'R') →
      (loopStep env s).1.batteryLevel ≤ s.batteryLevel ∧
      (5 ≤ s.batteryLevel → 5 ≤ (loopStep env s).1.batteryLevel)) ∧
    (∀ (env : Env) (s : DeviceState) (c : Char), env.serialCmd = some c →
      (c = 'r' ∨ c = 'R') → (loopStep env s).1.batteryLevel = 95) ∧
    (∀ (envs : List Env) (s : DeviceState),
      (∀ e ∈ envs, ∀ c, e.serialCmd = some c → c ≠ 'r' ∧ c ≠ 'R') →
      (loopTrace envs s).1.batteryLevel ≤ s.batteryLevel ∧
      (5 ≤ s.batteryLevel → 5 ≤ (loopTrace envs s).1.batteryLevel)) := by
  refine ⟨rfl, batteryStep_le, batteryStep_floor, loopStep_battery, ?_,
    loopTrace_battery⟩
  intro env s c hc h
  rw [loopStep_eq]
  unfold loopTail serialStep
  rw [hc]
  exact applyCommand_battery_reset c env.now _ h

/-- Environment for the C7 witness: a decay tick is due and no serial
command is pending. -/
def c7Env : Env :=
  { now := 120000
    mvs := fun _ => 0
    r1 := fun _ => 0
    r2 := fun _ => 0
    potValue := 0
    buttonPressed := false
    serialCmd := none }

/-- Environment for the C7 witness reset case: operator sends `r`. -/
def c7EnvReset : Env := { c7Env with serialCmd := some 'r' }

/-- Witness for C7: one busy iteration keeps the level within bounds, and
the reset command restores 95. -/
theorem battery_monotone_floor_witness :
    (loopStep c7Env initState).1.batteryLevel ≤ initState.batteryLevel ∧
    5 ≤ (loopStep c7Env initState).1.batteryLevel ∧
    (loopStep c7EnvReset initState).1.batteryLevel = 95 := by
  have h1 := battery_monotone_floor.2.2.2.1 c7Env initState
    (by intro c hc; simp [c7Env] at hc)
  have h2 := battery_monotone_floor.2.2.2.2.1 c7EnvReset initState 'r'
    rfl (Or.inl rfl)
  exact ⟨h1.1, h1.2 (by norm_num [initState]), h2⟩

/-! ### Fault-window lemmas -/

theorem buttonStep_active (now : ℕ) (b : Bool) (s : DeviceState)
    (h : s.arrhythmiaMode = true) : buttonStep now b s = s := by
  unfold buttonStep
  simp [h]

theorem faultTimeoutStep_start (now : ℕ) (s : DeviceState) :
    (faultTimeoutStep now s).arrhythmiaStart = s.arrhythmiaStart := by
  unfold faultTimeoutStep
  split <;> rfl

theorem faultTimeoutStep_iff (now : ℕ) (s : DeviceState)
    (h : s.arrhythmiaMode = true) :
    ((faultTimeoutStep now s).arrhythmiaMode = false ↔
      s.arrhythmiaStart + 10000 ≤ now) := by
  unfold faultTimeoutStep
  split
  · rename_i hc
    obtain ⟨hc1, hc2⟩ := hc
    exact ⟨fun _ => by omega, fun _ => rfl⟩
  · rename_i hc
    constructor
    · intro hfalse
      rw [h] at hfalse
      cases hfalse
    · intro hge
      exact absurd ⟨h, by omega⟩ hc

theorem faultTimeoutStep_keep (now : ℕ) (s : DeviceState)
    (h : now < s.arrhythmiaStart + 10000) : faultTimeoutStep now s = s := by
  unfold faultTimeoutStep
  rw [if_neg]
  intro hc
  omega

theorem applyCommand_fault_of_ne (c : Char) (now : ℕ) (s : DeviceState)
    (h : c ≠ 'a' ∧ c ≠ 'A') :
    (applyCommand c now s).arrhythmiaMode = s.arrhythmiaMode ∧
    (applyCommand c now s).arrhythmiaStart = s.arrhythmiaStart := by
  unfold applyCommand
  split_ifs with h1 h2 h3 h4
  · rcases h1 with h1 | h1 <;> simp [h1] at h
  · exact ⟨rfl, rfl⟩
  · exact ⟨rfl, rfl⟩
  · exact ⟨rfl, rfl⟩
  · exact ⟨rfl, rfl⟩

theorem serialStep_fault_of_ne (now : ℕ) (cmd : Option Char) (s : DeviceState)
    (h : ∀ c, cmd = some c → c ≠ 'a' ∧ c ≠ 'A') :
    (serialStep now cmd s).arrhythmiaMode = s.arrhythmiaMode ∧
    (serialStep now cmd s).arrhythmiaStart = s.arrhythmiaStart := by
  cases cmd with
  | none => exact ⟨rfl, rfl⟩
  | some c => exact applyCommand_fault_of_ne c now s (h c rfl)

/-- In an iteration entered with fault mode active, the state reaching the
fault-window check still carries the caller's fault flag and start time. -/
theorem chainToFault_fault (env : Env) (s : DeviceState)
    (h : s.arrhythmiaMode = true) :
    (buttonStep env.now env.buttonPressed
        (potStep env.now env.potValue
          (ledStep env.now
            (batteryStep env.now
              (emissionStep env (connectionEdge s)).1)))).arrhythmiaMode =
      true ∧
    (buttonStep env.now env.buttonPressed
        (potStep env.now env.potValue
          (ledStep env.now
            (batteryStep env.now
              (emissionStep env (connectionEdge s)).1)))).arrhythmiaStart =
      s.arrhythmiaStart := by
  have h0 := connectionEdge_fault s
  have h1 := emissionStep_fault env (connectionEdge s)
  have h2 := batteryStep_fault env.now (emissionStep env (connectionEdge s)).1
  have h3 := ledStep_fault env.now
    (batteryStep env.now (emissionStep env (connectionEdge s)).1)
  have h4 := potStep_fault env.now env.potValue
    (ledStep env.now
      (batteryStep env.now (emissionStep env (connectionEdge s)).1))
  have hmode : (potStep env.now env.potValue
      (ledStep env.now
        (batteryStep env.now
          (emissionStep env (connectionEdge s)).1))).arrhythmiaMode = true := by
    rw [h4.1, h3.1, h2.1, h1.1, h0.1, h]
  rw [buttonStep_active env.now env.buttonPressed _ hmode]
  refine ⟨hmode, ?_⟩
  rw [h4.2, h3.2, h2.2, h1.2, h0.2]

/-- C6: once fault mode is active with window start `t0`, a loop iteration
with no toggle command keeps it active (window start unchanged) exactly
while `now < t0 + 10000` and deactivates it at the first iteration with
`now ≥ t0 + 10000`; runs of toggle-free iterations inside the window keep
it active; the serial toggle flips the flag and restarts the window at the
toggle time, so a mid-window toggle deactivates and re-stamps the window,
and a second toggle reactivates with the window starting at that toggle. -/
theorem faultMode_window :
    (∀ (now : ℕ) (s : DeviceState), s.arrhythmiaMode = true →
      ((faultTimeoutStep now s).arrhythmiaMode = false ↔
        s.arrhythmiaStart + 10000 ≤ now)) ∧
    (∀ (now : ℕ) (s : DeviceState),
      (applyCommand 'a' now s).arrhythmiaMode = !s.arrhythmiaMode ∧
      (applyCommand 'a' now s).arrhythmiaStart = now) ∧
    (∀ (env : Env) (s : DeviceState), s.arrhythmiaMode = true →
      (∀ c, env.serialCmd = some c → c ≠ 'a' ∧ c ≠ 'A') →
      env.now < s.arrhythmiaStart + 10000 →
      (loopStep env s).1.arrhythmiaMode = true ∧
      (loopStep env s).1.arrhythmiaStart = s.arrhythmiaStart) ∧
    (∀ (env : Env) (s : DeviceState), s.arrhythmiaMode = true →
      (∀ c, env.serialCmd = some c → c ≠ 'a' ∧ c ≠ 'A') →
      s.arrhythmiaStart + 10000 ≤ env.now →
      (loopStep env s).1.arrhythmiaMode = false) ∧
    (∀ (env : Env) (s : DeviceState), s.arrhythmiaMode = true →
      env.serialCmd = some 'a' → env.now < s.arrhythmiaStart + 10000 →
      (loopStep env s).1.arrhythmiaMode = false ∧
      (loopStep env s).1.arrhythmiaStart = env.now) ∧
    (∀ (envs : List Env) (s : DeviceState), s.arrhythmiaMode = true →
      (∀ e ∈ envs, (∀ c, e.serialCmd = some c → c ≠ 'a' ∧ c ≠ 'A') ∧
        e.now < s.arrhythmiaStart + 10000) →
      (loopTrace envs s).1.arrhythmiaMode = true ∧
      (loopTrace envs s).1.arrhythmiaStart = s.arrhythmiaStart) := by
  have keep : ∀ (env : Env) (s : DeviceState), s.arrhythmiaMode = true →
      (∀ c, env.serialCmd = some c → c ≠ 'a' ∧ c ≠ 'A') →
      env.now < s.arrhythmiaStart + 10000 →
      (loopStep env s).1.arrhythmiaMode = true ∧
      (loopStep env s).1.arrhythmiaStart = s.arrhythmiaStart := by
    intro env s h hcmd hlt
    rw [loopStep_eq]
    unfold loopTail
    obtain ⟨c1, c2⟩ := chainToFault_fault env s h
    have hkeep : faultTimeoutStep env.now
        (buttonStep env.now env.buttonPressed
          (potStep env.now env.potValue
            (ledStep env.now
              (batteryStep env.now
                (emissionStep env (connectionEdge s)).1)))) =
        buttonStep env.now env.buttonPressed
          (potStep env.now env.potValue
            (ledStep env.now
              (batteryStep env.now
                (emissionStep env (connectionEdge s)).1))) := by
      apply faultTimeoutStep_keep
      rw [c2]
      exact hlt
    rw [hkeep]
    obtain ⟨s1, s2⟩ := serialStep_fault_of_ne env.now env.serialCmd _ hcmd
    rw [s1, s2]
    exact ⟨c1, c2⟩
  refine ⟨faultTimeoutStep_iff, fun now s => ⟨rfl, rfl⟩, keep, ?_, ?_, ?_⟩
  · intro env s h hcmd hge
    rw [loopStep_eq]
    unfold loopTail
    obtain ⟨c1, c2⟩ := chainToFault_fault env s h
    have hoff := (faultTimeoutStep_iff env.now _ c1).mpr (by rw [c2]; exact hge)
    exact (serialStep_fault_of_ne env.now env.serialCmd _ hcmd).1.trans hoff
  · intro env s h hcmd hlt
    rw [loopStep_eq]
    unfold loopTail
    obtain ⟨c1, c2⟩ := chainToFault_fault env s h
    have hkeep : faultTimeoutStep env.now
        (buttonStep env.now env.buttonPressed
          (potStep env.now env.potValue
            (ledStep env.now
              (batteryStep env.now
                (emissionStep env (connectionEdge s)).1)))) =
        buttonStep env.now env.buttonPressed
          (potStep env.now env.potValue
            (ledStep env.now
              (batteryStep env.now
                (emissionStep env (connectionEdge s)).1))) := by
      apply faultTimeoutStep_keep
      rw [c2]
      exact hlt
    rw [hkeep]
    unfold serialStep
    rw [hcmd]
    constructor
    · show (applyCommand 'a' env.now _).arrhythmiaMode = false
      have : (applyCommand 'a' env.now
          (buttonStep env.now env.buttonPressed
            (potStep env.now env.potValue
              (ledStep env.now
                (batteryStep env.now
                  (emissionStep env (connectionEdge s)).1))))).arrhythmiaMode =
          !(buttonStep env.now env.buttonPressed
            (potStep env.now env.potValue
              (ledStep env.now
                (batteryStep env.now
                  (emissionStep env (connectionEdge s)).1)))).arrhythmiaMode :=
        rfl
      rw [this, c1]
      rfl
    · rfl
  · intro envs
    induction envs with
    | nil => intro s h _; exact ⟨h, rfl⟩
    | cons env rest ih =>
      intro s h hall
      have h1 := hall env (List.mem_cons_self env rest)
      have hk := keep env s h h1.1 h1.2
      simp only [loopTrace]
      have h2 := ih (loopStep env s).1 hk.1
        (fun e he => by
          have := hall e (List.mem_cons_of_mem env he)
          rw [hk.2]
          exact this)
      rw [hk.2] at h2
      exact h2

/-- State for the C6 witness: fault mode active since time 0. -/
def c6State : DeviceState :=
  { initState with arrhythmiaMode := true, arrhythmiaStart := 0 }

/-- C6 witness environment inside the 10-second window, no toggle. -/
def c6EnvIn : Env :=
  { now := 5000
    mvs := fun _ => 0
    r1 := fun _ => 0
    r2 := fun _ => 0
    potValue := 0
    buttonPressed := false
    serialCmd := none }

/-- C6 witness environment at window expiry. -/
def c6EnvOut : Env := { c6EnvIn with now := 10000 }

/-- C6 witness environment with a mid-window toggle. -/
def c6EnvToggle : Env := { c6EnvIn with serialCmd := some 'a' }

/-- Witness for C6: mid-window the mode stays active with its start time,
at 10000 ms it deactivates, and a mid-window toggle deactivates and
re-stamps the window start at the toggle time. -/
theorem faultMode_window_witness :
    (loopStep c6EnvIn c6State).1.arrhythmiaMode = true ∧
    (loopStep c6EnvIn c6State).1.arrhythmiaStart = 0 ∧
    (loopStep c6EnvOut c6State).1.arrhythmiaMode = false ∧
    (loopStep c6EnvToggle c6State).1.arrhythmiaMode = false ∧
    (loopStep c6EnvToggle c6State).1.arrhythmiaStart = 5000 := by
  have hIn := faultMode_window.2.2.1 c6EnvIn c6State rfl
    (by intro c hc; simp [c6EnvIn] at hc)
    (by simp [c6EnvIn, c6State])
  have hOut := faultMode_window.2.2.2.1 c6EnvOut c6State rfl
    (by intro c hc; simp [c6EnvOut, c6EnvIn] at hc)
    (by simp [c6EnvOut, c6EnvIn, c6State])
  have hTog := faultMode_window.2.2.2.2.1 c6EnvToggle c6State rfl rfl
    (by simp [c6EnvToggle, c6EnvIn, c6State])
  exact ⟨hIn.1, hIn.2, hOut, hTog.1, hTog.2⟩
